import Mathlib

/-!
# Verification of the vault secrets-store core (Rust sources)

A shallow embedding of the envelope-encryption engine of the vault
repository: `Value` classification (src/rust/src/value.rs), the `Meta`
sidecar JSON and `S3DataKeys` object naming (src/rust/src/lib.rs), and the
`Vault` operations `store`, `lookup`, `exists`, `delete`, `all` and
`update_stack` (src/rust/src/vault.rs).

Modelling conventions:
* Byte strings are `List Nat` with each element a byte value; object keys
  are `List Char`.
* External collaborators (the AWS SDK clients, the `aes_gcm` crate,
  `serde_json`, the `base64` crate, the RNG) are the environment of the
  code: base64 and the JSON codec are modelled executably and faithfully;
  AES-256-GCM is modelled as an ideal AEAD (an opaque sealed box that
  opens exactly under the key, nonce and AAD it was sealed with, which is
  the guarantee the code relies on); the object store and KMS are response
  oracles plus an explicit object map, and each operation additionally
  returns the trace of service requests it issued.
* Rust `Result` becomes `Except VaultError`; a Rust panic (the
  `GenericArray::from_slice` length assertion) is a distinguished
  `PanicOr.panic` outcome.
-/

/-! ## Bytes and characters -/

/-- Byte strings: each element is one byte (kept `< 256` by construction
in the code; hypotheses state it where proofs need it). -/
abbrev Bytes := List Nat

/-- The bytes of an ASCII string literal (all string literals in the
embedded code are ASCII, where code point = byte). -/
def strB (s : String) : Bytes := s.data.map Char.toNat

/-- Object keys and other Rust `String`s that are only concatenated and
suffix-tested are kept as character lists. -/
abbrev Key := List Char

/-- The character list of a string literal. -/
def strL (s : String) : Key := s.data

/-! ## Base64 (the `base64` crate, `engine::general_purpose::STANDARD`:
padded, canonical, trailing bits rejected) -/

/-- The standard base64 alphabet, as byte values. -/
def b64alpha (v : Nat) : Nat :=
  if v < 26 then 65 + v
  else if v < 52 then 97 + (v - 26)
  else if v < 62 then 48 + (v - 52)
  else if v = 62 then 43
  else 47

/-- Inverse of the alphabet: byte of a base64 symbol to its 6-bit value. -/
def b64val (c : Nat) : Option Nat :=
  if 65 ≤ c ∧ c ≤ 90 then some (c - 65)
  else if 97 ≤ c ∧ c ≤ 122 then some (c - 97 + 26)
  else if 48 ≤ c ∧ c ≤ 57 then some (c - 48 + 52)
  else if c = 43 then some 62
  else if c = 47 then some 63
  else none

/-- `STANDARD.encode`: 3-byte groups to 4 symbols, `=`-padded. -/
def b64encode : Bytes → Bytes
  | [] => []
  | [a] => [b64alpha (a / 4), b64alpha (a % 4 * 16), 61, 61]
  | [a, b] => [b64alpha (a / 4), b64alpha (a % 4 * 16 + b / 16),
               b64alpha (b % 16 * 4), 61]
  | a :: b :: c :: rest =>
      b64alpha (a / 4) :: b64alpha (a % 4 * 16 + b / 16) ::
      b64alpha (b % 16 * 4 + c / 64) :: b64alpha (c % 64) :: b64encode rest

/-- `STANDARD.decode`: requires canonical padding, rejects non-alphabet
symbols, mid-input padding and set trailing bits. -/
def b64decode : Bytes → Option Bytes
  | [] => some []
  | c0 :: c1 :: c2 :: c3 :: rest =>
      match b64val c0, b64val c1 with
      | some v0, some v1 =>
          if rest = [] ∧ c3 = 61 then
            if c2 = 61 then
              if v1 % 16 = 0 then some [v0 * 4 + v1 / 16] else none
            else
              match b64val c2 with
              | some v2 =>
                  if v2 % 4 = 0 then
                    some [v0 * 4 + v1 / 16, v1 % 16 * 16 + v2 / 4]
                  else none
              | none => none
          else
            match b64val c2, b64val c3 with
            | some v2, some v3 =>
                match b64decode rest with
                | some bs =>
                    some ((v0 * 4 + v1 / 16) :: (v1 % 16 * 16 + v2 / 4) ::
                          (v2 % 4 * 64 + v3) :: bs)
                | none => none
            | _, _ => none
      | _, _ => none
  | _ => none

theorem b64val_alpha {v : Nat} (h : v < 64) : b64val (b64alpha v) = some v := by
  interval_cases v <;> decide

theorem b64alpha_ne_61 {v : Nat} (h : v < 64) : b64alpha v ≠ 61 := by
  interval_cases v <;> decide

/-- Encoding then decoding returns the original bytes. -/
theorem b64decode_encode : ∀ (bs : Bytes), (∀ b ∈ bs, b < 256) →
    b64decode (b64encode bs) = some bs
  | [], _ => rfl
  | [a], h => by
      have ha : a < 256 := h a (by simp)
      have h0 : a / 4 < 64 := by omega
      have h1 : a % 4 * 16 < 64 := by omega
      simp only [b64encode, b64decode, b64val_alpha h0, b64val_alpha h1]
      have : a % 4 * 16 % 16 = 0 := by omega
      simp [this]
      omega
  | [a, b], h => by
      have ha : a < 256 := h a (by simp)
      have hb : b < 256 := h b (by simp)
      have h0 : a / 4 < 64 := by omega
      have h1 : a % 4 * 16 + b / 16 < 64 := by omega
      have h2 : b % 16 * 4 < 64 := by omega
      simp only [b64encode, b64decode, b64val_alpha h0, b64val_alpha h1,
        b64val_alpha h2]
      have hne : ¬(b64alpha (b % 16 * 4) = 61) := b64alpha_ne_61 h2
      simp [b64val_alpha h2, hne]
      omega
  | a :: b :: c :: rest, h => by
      have ha : a < 256 := h a (by simp)
      have hb : b < 256 := h b (by simp)
      have hc : c < 256 := h c (by simp)
      have h0 : a / 4 < 64 := by omega
      have h1 : a % 4 * 16 + b / 16 < 64 := by omega
      have h2 : b % 16 * 4 + c / 64 < 64 := by omega
      have h3 : c % 64 < 64 := by omega
      have ih := b64decode_encode rest (fun x hx => h x (by simp [hx]))
      simp only [b64encode, b64decode, b64val_alpha h0, b64val_alpha h1,
        b64val_alpha h2, b64val_alpha h3]
      have hne : ¬(b64alpha (c % 64) = 61) := b64alpha_ne_61 h3
      rcases hrest : b64encode rest with _ | ⟨x, xs⟩
      · simp only [hrest] at ih
        simp [hne, ih]
        omega
      · simp only [hrest] at ih
        simp [hne, ih]
        omega

/-- A byte is safe inside a JSON string body: printable ASCII that is
neither `"` nor `\`. -/
def jsonSafe (c : Nat) : Prop := 32 ≤ c ∧ c ≠ 34 ∧ c ≠ 92 ∧ c < 128

instance : DecidablePred jsonSafe := fun c => by
  unfold jsonSafe
  infer_instance

theorem jsonSafe_alpha {v : Nat} (h : v < 64) : jsonSafe (b64alpha v) := by
  have p : ∀ v < 64, 32 ≤ b64alpha v ∧ b64alpha v ≠ 34 ∧
      b64alpha v ≠ 92 ∧ b64alpha v < 128 := by decide
  exact p v h

theorem jsonSafe_61 : jsonSafe 61 := by constructor <;> simp

/-- Every output symbol of `b64encode` is printable, and is neither `"`
nor `\` (so base64 text embeds in a JSON string unescaped). -/
theorem b64encode_safe : ∀ (bs : Bytes), (∀ b ∈ bs, b < 256) →
    ∀ c ∈ b64encode bs, jsonSafe c
  | [], _ => by simp [b64encode]
  | [a], h => by
      have ha : a < 256 := h a (by simp)
      intro c hc
      simp only [b64encode, List.mem_cons, List.not_mem_nil, or_false] at hc
      rcases hc with rfl | rfl | rfl | rfl
      · exact jsonSafe_alpha (by omega)
      · exact jsonSafe_alpha (by omega)
      · exact jsonSafe_61
      · exact jsonSafe_61
  | [a, b], h => by
      have ha : a < 256 := h a (by simp)
      have hb : b < 256 := h b (by simp)
      intro c hc
      simp only [b64encode, List.mem_cons, List.not_mem_nil, or_false] at hc
      rcases hc with rfl | rfl | rfl | rfl
      · exact jsonSafe_alpha (by omega)
      · exact jsonSafe_alpha (by omega)
      · exact jsonSafe_alpha (by omega)
      · exact jsonSafe_61
  | a :: b :: c :: rest, h => by
      have ha : a < 256 := h a (by simp)
      have hb : b < 256 := h b (by simp)
      have hc : c < 256 := h c (by simp)
      have ih := b64encode_safe rest (fun x hx => h x (by simp [hx]))
      intro x hx
      simp only [b64encode, List.mem_cons] at hx
      rcases hx with rfl | rfl | rfl | rfl | hx
      · exact jsonSafe_alpha (by omega)
      · exact jsonSafe_alpha (by omega)
      · exact jsonSafe_alpha (by omega)
      · exact jsonSafe_alpha (by omega)
      · exact ih x hx

/-- A 12-byte input encodes to 16 symbols. -/
theorem b64encode_length_twelve (bs : Bytes) (h : bs.length = 12) :
    (b64encode bs).length = 16 := by
  match bs, h with
  | [b0, b1, b2, b3, b4, b5, b6, b7, b8, b9, b10, b11], _ =>
      simp [b64encode]

/-! ## UTF-8 validity (`std::str::from_utf8` / `String::from_utf8`) -/

/-- Is `c` a UTF-8 continuation byte (`0x80..=0xBF`)? -/
def isCont (c : Nat) : Bool := 128 ≤ c ∧ c ≤ 191

/-- The exact validity check of Rust's `str::from_utf8`: well-formed
UTF-8, rejecting overlong forms, surrogates and code points above
`U+10FFFF`. -/
def isValidUtf8 : Bytes → Bool
  | [] => true
  | c :: rest =>
      if c < 128 then isValidUtf8 rest
      else if 194 ≤ c ∧ c ≤ 223 then
        match rest with
        | c1 :: r => isCont c1 && isValidUtf8 r
        | [] => false
      else if c = 224 then
        match rest with
        | c1 :: c2 :: r => (160 ≤ c1 ∧ c1 ≤ 191 : Bool) && isCont c2 && isValidUtf8 r
        | _ => false
      else if (225 ≤ c ∧ c ≤ 236) ∨ c = 238 ∨ c = 239 then
        match rest with
        | c1 :: c2 :: r => isCont c1 && isCont c2 && isValidUtf8 r
        | _ => false
      else if c = 237 then
        match rest with
        | c1 :: c2 :: r => (128 ≤ c1 ∧ c1 ≤ 159 : Bool) && isCont c2 && isValidUtf8 r
        | _ => false
      else if c = 240 then
        match rest with
        | c1 :: c2 :: c3 :: r =>
            (144 ≤ c1 ∧ c1 ≤ 191 : Bool) && isCont c2 && isCont c3 && isValidUtf8 r
        | _ => false
      else if 241 ≤ c ∧ c ≤ 243 then
        match rest with
        | c1 :: c2 :: c3 :: r => isCont c1 && isCont c2 && isCont c3 && isValidUtf8 r
        | _ => false
      else if c = 244 then
        match rest with
        | c1 :: c2 :: c3 :: r =>
            (128 ≤ c1 ∧ c1 ≤ 143 : Bool) && isCont c2 && isCont c3 && isValidUtf8 r
        | _ => false
      else false

/-! ## Value (src/rust/src/value.rs) -/

/-- `Value`: tagged UTF-8 text or raw binary. The source's `Utf8` variant
holds a Rust `String`; its byte content is what every operation consumes
(`as_bytes`), so the model stores the bytes together with the variant tag
(`utf8` is only built for byte strings passing `isValidUtf8`). -/
inductive Value where
  | utf8 (bytes : Bytes)
  | binary (bytes : Bytes)
deriving DecidableEq

/-- `Value::new` / `Value::from` and the classification done by `lookup`
and `from_stdin`: UTF-8 bytes become `Utf8`, anything else `Binary`. -/
def Value.new (bytes : Bytes) : Value :=
  if isValidUtf8 bytes then .utf8 bytes else .binary bytes

/-- `Value::as_bytes`. -/
def Value.asBytes : Value → Bytes
  | .utf8 s => s
  | .binary b => b

@[simp] theorem Value.asBytes_new (bytes : Bytes) :
    (Value.new bytes).asBytes = bytes := by
  unfold Value.new
  split <;> rfl

/-- `Value::from_possibly_base64_encoded`: decode as base64 if possible,
else keep the UTF-8 string. -/
def Value.fromPossiblyBase64Encoded (value : Bytes) : Value :=
  match b64decode value with
  | some decoded => .binary decoded
  | none => .utf8 value

/-- Errors of the embedded code, one constructor per `VaultError` variant
that the modelled operations can produce (src/rust/src/errors.rs; the
`Nat` payloads stand for the wrapped AWS SDK service errors). -/
inductive VaultError where
  | keyARNMissing
  | kmsGenerateDataKey (e : Nat)
  | kmsDecrypt (e : Nat)
  | kmsDataKeyPlainTextMissing
  | invalidNonceLength
  | nonceDecrypt
  | ciphertextEncryption
  | encryptObjectMetaToJson
  | nonceParse
  | s3GetObject (e : Nat)
  | s3GetObjectBody
  | s3HeadObject (e : Nat)
  | s3PutObject (e : Nat)
  | s3DeleteObjects (e : Nat)
  | s3DeleteObjectKeyMissing
  | s3ListObjects (e : Nat)
  | stackVersionNotFound
  | describeStack (e : Nat)
  | updateStackFailed (e : Nat)
  | fileRead
deriving DecidableEq

/-- `Value::from_path` on a file whose read succeeded with `content`:
`fs::read_to_string` succeeds exactly on valid UTF-8, in which case the
text goes through `from_possibly_base64_encoded`; otherwise the raw bytes
are re-read and returned as `Binary`. -/
def Value.fromPath (content : Bytes) : Except VaultError Value :=
  if isValidUtf8 content then
    .ok (Value.fromPossiblyBase64Encoded content)
  else
    .ok (.binary content)

/-- `Value::from_stdin` on stdin bytes `input` (read to EOF): valid UTF-8
goes through `from_possibly_base64_encoded`, anything else is `Binary`. -/
def Value.fromStdin (input : Bytes) : Except VaultError Value :=
  if isValidUtf8 input then
    .ok (Value.fromPossiblyBase64Encoded input)
  else
    .ok (.binary input)

/-! ## JSON (`serde_json`: `to_string` for `Meta`, `from_slice::<Meta>`) -/

/-- Hex value of an ASCII byte, for `\uXXXX` escapes. -/
def hexVal (c : Nat) : Option Nat :=
  if 48 ≤ c ∧ c ≤ 57 then some (c - 48)
  else if 97 ≤ c ∧ c ≤ 102 then some (c - 97 + 10)
  else if 65 ≤ c ∧ c ≤ 70 then some (c - 65 + 10)
  else none

/-- UTF-8 encoding of a code point (scalar values only). -/
def utf8EncodeCp (cp : Nat) : Bytes :=
  if cp < 128 then [cp]
  else if cp < 2048 then [192 + cp / 64, 128 + cp % 64]
  else if cp < 65536 then [224 + cp / 4096, 128 + cp / 64 % 64, 128 + cp % 64]
  else [240 + cp / 262144, 128 + cp / 4096 % 64, 128 + cp / 64 % 64, 128 + cp % 64]

/-- Single-character escapes accepted after `\` (`\uXXXX` handled apart).
Surrogate escapes are rejected here rather than paired, which only
narrows the accepted input set on inputs the claims never produce. -/
def escVal (e : Nat) : Option Bytes :=
  if e = 34 then some [34]
  else if e = 92 then some [92]
  else if e = 47 then some [47]
  else if e = 98 then some [8]
  else if e = 102 then some [12]
  else if e = 110 then some [10]
  else if e = 114 then some [13]
  else if e = 116 then some [9]
  else none

/-- Parse a JSON string body after the opening quote: returns the decoded
content bytes and the input after the closing quote. Control bytes below
0x20 are rejected, as `serde_json` does. -/
def parseStrBody : Bytes → Option (Bytes × Bytes)
  | [] => none
  | c :: r =>
      if c = 34 then some ([], r)
      else if c = 92 then
        match r with
        | [] => none
        | e :: r2 =>
            if e = 117 then
              match r2 with
              | h1 :: h2 :: h3 :: h4 :: r3 =>
                  match hexVal h1, hexVal h2, hexVal h3, hexVal h4 with
                  | some a, some b, some c', some d =>
                      let cp := ((a * 16 + b) * 16 + c') * 16 + d
                      if 55296 ≤ cp ∧ cp < 57344 then none
                      else
                        match parseStrBody r3 with
                        | some (s, rest) => some (utf8EncodeCp cp ++ s, rest)
                        | none => none
                  | _, _, _, _ => none
              | _ => none
            else
              match escVal e with
              | some cs =>
                  match parseStrBody r2 with
                  | some (s, rest) => some (cs ++ s, rest)
                  | none => none
              | none => none
      else if c < 32 then none
      else
        match parseStrBody r with
        | some (s, rest) => some (c :: s, rest)
        | none => none

/-- Split off a run of ASCII digits. -/
def takeDigits : Bytes → Bytes × Bytes
  | [] => ([], [])
  | c :: r =>
      if 48 ≤ c ∧ c ≤ 57 then
        let (ds, rest) := takeDigits r
        (c :: ds, rest)
      else ([], c :: r)

/-- JSON whitespace. -/
def isJWs (c : Nat) : Bool := c = 32 ∨ c = 9 ∨ c = 10 ∨ c = 13

def skipWs : Bytes → Bytes
  | [] => []
  | c :: r => if isJWs c then skipWs r else c :: r

/-- Consume an (optional) fraction and exponent after the integer part of
a JSON number; `none` on a malformed tail. -/
def numTail (r : Bytes) : Option Bytes :=
  let afterFrac : Option Bytes :=
    match r with
    | 46 :: r2 =>
        match takeDigits r2 with
        | ([], _) => none
        | (_ :: _, rest) => some rest
    | _ => some r
  match afterFrac with
  | none => none
  | some r3 =>
      match r3 with
      | c :: r4 =>
          if c = 101 ∨ c = 69 then
            let r5 := match r4 with
              | 43 :: r' => r'
              | 45 :: r' => r'
              | _ => r4
            match takeDigits r5 with
            | ([], _) => none
            | (_ :: _, rest) => some rest
          else some r3
      | [] => some r3

/-- Consume a JSON number (leading `-` already allowed), rejecting
leading zeros; returns the rest of the input. -/
def parseNumBody (b : Bytes) : Option Bytes :=
  let b1 := match b with
    | 45 :: r => r
    | _ => b
  match b1 with
  | [] => none
  | c :: r =>
      if c = 48 then
        match r with
        | d :: _ =>
            if 48 ≤ d ∧ d ≤ 57 then none else numTail r
        | [] => numTail r
      else if 49 ≤ c ∧ c ≤ 57 then numTail (takeDigits r).2
      else none

/-- A parsed JSON value; numbers carry no payload since the embedded code
never reads one. -/
inductive Json where
  | str (s : Bytes)
  | num
  | jsonBool (b : Bool)
  | jsonNull
  | arr (elems : List Json)
  | obj (fields : List (Bytes × Json))

mutual

/-- Parse one JSON value (recursion measured by `fuel`; callers pass the
input length plus one, which the nesting depth can never exhaust). -/
def parseJValue : Nat → Bytes → Option (Json × Bytes)
  | 0, _ => none
  | fuel + 1, b =>
      match skipWs b with
      | [] => none
      | c :: r =>
          if c = 34 then
            match parseStrBody r with
            | some (s, rest) => some (.str s, rest)
            | none => none
          else if c = 123 then
            match skipWs r with
            | [] => none
            | c2 :: r2 =>
                if c2 = 125 then some (.obj [], r2)
                else
                  match parseJMembers fuel (c2 :: r2) with
                  | some (ms, rest) => some (.obj ms, rest)
                  | none => none
          else if c = 91 then
            match skipWs r with
            | [] => none
            | c2 :: r2 =>
                if c2 = 93 then some (.arr [], r2)
                else
                  match parseJElems fuel (c2 :: r2) with
                  | some (es, rest) => some (.arr es, rest)
                  | none => none
          else if c = 116 then
            match r with
            | 114 :: 117 :: 101 :: rest => some (.jsonBool true, rest)
            | _ => none
          else if c = 102 then
            match r with
            | 97 :: 108 :: 115 :: 101 :: rest => some (.jsonBool false, rest)
            | _ => none
          else if c = 110 then
            match r with
            | 117 :: 108 :: 108 :: rest => some (.jsonNull, rest)
            | _ => none
          else if c = 45 ∨ (48 ≤ c ∧ c ≤ 57) then
            match parseNumBody (c :: r) with
            | some rest => some (.num, rest)
            | none => none
          else none

/-- Parse one or more `"key": value` members and the closing `}`. -/
def parseJMembers : Nat → Bytes → Option (List (Bytes × Json) × Bytes)
  | 0, _ => none
  | fuel + 1, b =>
      match skipWs b with
      | 34 :: r =>
          match parseStrBody r with
          | some (name, r1) =>
              (match skipWs r1 with
               | 58 :: r2 =>
                   match parseJValue fuel r2 with
                   | some (v, r3) =>
                       (match skipWs r3 with
                        | 44 :: r4 =>
                            (match parseJMembers fuel r4 with
                             | some (ms, r5) => some ((name, v) :: ms, r5)
                             | none => none)
                        | 125 :: r4 => some ([(name, v)], r4)
                        | _ => none)
                   | none => none
               | _ => none)
          | none => none
      | _ => none

/-- Parse one or more array elements and the closing `]`. -/
def parseJElems : Nat → Bytes → Option (List Json × Bytes)
  | 0, _ => none
  | fuel + 1, b =>
      match parseJValue fuel b with
      | some (v, r) =>
          (match skipWs r with
           | 44 :: r2 =>
               (match parseJElems fuel r2 with
                | some (es, r3) => some (v :: es, r3)
                | none => none)
           | 93 :: r2 => some ([v], r2)
           | _ => none)
      | none => none

end

example : parseJValue 100 (strB ("[1, \"a\", true, null, \x7b\x7d]")) =
    some (.arr [.num, .str (strB ("a")), .jsonBool true, .jsonNull, .obj []], []) := rfl

/-- The sidecar metadata record (src/rust/src/lib.rs `Meta`): both fields
are JSON strings, `nonce` base64-encoded. -/
structure Meta where
  alg : Bytes
  nonce : Bytes
deriving DecidableEq

/-- `serde_json` string escaping of one byte (the `Meta` fields only ever
contain bytes for which this is the identity). -/
def escapeByte (c : Nat) : Bytes :=
  if c = 34 then [92, 34]
  else if c = 92 then [92, 92]
  else if c = 8 then [92, 98]
  else if c = 12 then [92, 102]
  else if c = 10 then [92, 110]
  else if c = 13 then [92, 114]
  else if c = 9 then [92, 116]
  else if c < 32 then
    [92, 117, 48, 48, 48 + c / 16, if c % 16 < 10 then 48 + c % 16 else 87 + c % 16]
  else [c]

def jsonEscape : Bytes → Bytes
  | [] => []
  | c :: r => escapeByte c ++ jsonEscape r

/-- `Meta::new(algorithm, nonce)`: the `nonce` field is the standard
base64 of the raw nonce bytes. -/
def Meta.new (algorithm : Bytes) (nonce : Bytes) : Meta :=
  ⟨algorithm, b64encode nonce⟩

/-- `Meta::aesgcm(nonce)` as used by `Vault::encrypt`. -/
def Meta.aesgcm (nonce : Bytes) : Meta := Meta.new (strB ("AESGCM")) nonce

/-- `Meta::to_json` via `serde_json::to_string`: canonical object with the
two fields in declaration order and no interior whitespace. -/
def Meta.toJson (m : Meta) : Bytes :=
  strB ("\x7b\"alg\":\"") ++ jsonEscape m.alg ++ strB ("\",\"nonce\":\"") ++
    jsonEscape m.nonce ++ strB ("\"\x7d")

/-- Derived-`Deserialize` extraction from a parsed value: the document
must be an object, each known field must appear exactly once with a
string value (a duplicate known field is an error), unknown fields are
ignored. -/
def metaFromJson : Json → Option Meta
  | .obj fields =>
      let algs := fields.filter (fun f => f.1 = strB ("alg"))
      let nonces := fields.filter (fun f => f.1 = strB ("nonce"))
      match algs, nonces with
      | [(_, .str a)], [(_, .str n)] => some ⟨a, n⟩
      | _, _ => none
  | _ => none

/-- `serde_json::from_slice::<Meta>`: parse the full document, allow only
trailing whitespace, then extract the two fields. -/
def parseMeta (bs : Bytes) : Option Meta :=
  match parseJValue (bs.length + 1) bs with
  | some (j, rest) => if skipWs rest = [] then metaFromJson j else none
  | none => none

example : parseMeta (strB ("\x7b\"alg\":\"AESGCM\",\"nonce\":\"AAAAAAAAAAAAAAAA\"\x7d")) =
    some ⟨strB ("AESGCM"), strB ("AAAAAAAAAAAAAAAA")⟩ := by decide

example : parseMeta ((Meta.aesgcm [0, 1, 2, 3, 4, 5, 6, 7, 8, 9, 10, 255]).toJson) =
    some ⟨strB ("AESGCM"), b64encode [0, 1, 2, 3, 4, 5, 6, 7, 8, 9, 10, 255]⟩ := by
  decide

example : b64decode (strB ("AAAAAAAAAAAAAAAA")) = some [0,0,0,0,0,0,0,0,0,0,0,0] := by
  decide

example : parseMeta (strB ("\x7b\"alg\":\"AESGCM\"\x7d")) = none := by decide

example : parseMeta (strB (" \x7b \"nonce\" : \"xy\" , \"alg\" : \"A\" , \"other\" : [1] \x7d ")) =
    some ⟨strB ("A"), strB ("xy")⟩ := by decide

/-! ## The object-store and KMS environment

The stored value of an S3 object.  Sealed AEAD outputs and KMS-wrapped
data keys are opaque byte blobs to the code; the model keeps them as
symbolic constructors so that the ideal-AEAD and ideal-KMS guarantees
(open only under the sealing parameters, unwrap returns the wrapped key)
are exact. -/
inductive Body where
  | bytes (bs : Bytes)
  | sealed (key nonce aad msg : Bytes)
  | wrapped (dataKey : Bytes)
deriving DecidableEq

/-- `AesGcm::encrypt` (ideal AEAD): the sealed box records its sealing
parameters. The ciphertext-too-long failure arm of the source maps to the
unreachable `CiphertextEncryptionError`, which the model never takes. -/
def gcmSeal (key nonce aad msg : Bytes) : Body := .sealed key nonce aad msg

/-- `AesGcm::decrypt` (ideal AEAD): opens exactly under the original key,
nonce and AAD; rejects everything else (tag mismatch). -/
def gcmOpen (key nonce aad : Bytes) : Body → Option Bytes
  | .sealed k n a m => if k = key ∧ n = nonce ∧ a = aad then some m else none
  | _ => none

/-- Outcome of an S3 `HeadObject` call. -/
inductive HeadOutcome where
  | ok
  | notFound
  | other (e : Nat)
deriving DecidableEq

/-- One page of an S3 `ListObjectsV2` response. -/
structure ListPage where
  contents : List (Option Key)
  isTruncated : Bool
  nextContinuationToken : Option Key

/-- A KMS `GenerateDataKey` response: both interesting fields are
optional in the SDK. -/
structure GenKeyOut where
  plaintext : Option Bytes
  ciphertextBlob : Option Body

/-- A service request issued by a vault operation, in issue order. -/
inductive Request where
  | headObject (bucket key : Key)
  | getObject (bucket key : Key)
  | putObject (bucket key : Key) (body : Body) (acl : Key)
  | deleteObjects (bucket : Key) (keys : List Key)
  | listObjectsV2 (bucket : Key) (continuationToken : Option Key)
  | generateDataKey (keyId : Key) (keySpec : Key)
  | kmsDecrypt (blob : Body)
deriving DecidableEq

/-- The environment a vault call runs against: the bucket's object map
plus response oracles for each service call (`none`/`ok` = the service
call succeeds, `some e` = it fails with service error `e`). -/
structure Env where
  objects : List (Key × Body)
  headRes : Key → HeadOutcome
  getFault : Key → Option Nat
  putRes : Key → Option Nat
  delRes : Option Nat
  listRes : Option Key → Except Nat ListPage
  genRes : Except Nat GenKeyOut
  kmsFault : Option Nat

/-- First-match association lookup (newest object version first). -/
def lookupA : List (Key × Body) → Key → Option Body
  | [], _ => none
  | (k, b) :: r, key => if k = key then some b else lookupA r key

/-- A successful `PutObject` prepends the new object version. -/
def Env.putObj (env : Env) (key : Key) (body : Body) : Option Nat × Env :=
  match env.putRes key with
  | some e => (some e, env)
  | none => (none, { env with objects := (key, body) :: env.objects })

/-- `get_s3_object`: serve the object bytes, or the injected service
fault, or the not-found service error (id 0). The body-collect failure
arm (`S3GetObjectBodyError`) cannot occur for a served object. -/
def Env.getObj (env : Env) (key : Key) : Except VaultError Body :=
  match env.getFault key with
  | some e => .error (.s3GetObject e)
  | none =>
      match lookupA env.objects key with
      | some b => .ok b
      | none => .error (.s3GetObject 0)

/-- `direct_decrypt` / KMS `Decrypt` (ideal KMS): unwraps a wrapped data
key; anything else is not a KMS ciphertext and is rejected. A present
plaintext is part of a successful unwrap, so
`KMSDataKeyPlainTextMissingError` cannot occur here. -/
def Env.kmsDecryptCall (env : Env) (blob : Body) : Except VaultError Bytes :=
  match env.kmsFault with
  | some e => .error (.kmsDecrypt e)
  | none =>
      match blob with
      | .wrapped k => .ok k
      | _ => .error (.kmsDecrypt 0)

/-! ## The Vault and its operations (src/rust/src/vault.rs) -/

/-- The constructed `Vault`: resolved region, the normalised key-name
prefix (source field `prefix`, renamed here), and the resolved
`CloudFormationParams` (bucket, optional key ARN, stack name). -/
structure Vault where
  region : Key
  keyPrefix : Key
  bucketName : Key
  keyArn : Option Key
  stackName : Key

/-- `full_key_name`: prepend the prefix when one is configured. -/
def Vault.fullKeyName (v : Vault) (name : Key) : Key :=
  if v.keyPrefix = [] then name else v.keyPrefix ++ name

/-- `S3DataKeys` (src/rust/src/lib.rs): the three sibling object keys of
one logical secret. -/
structure S3DataKeys where
  key : Key
  cipher : Key
  meta : Key

def S3DataKeys.new (name : Key) : S3DataKeys :=
  ⟨name ++ strL (".key"), name ++ strL (".aesgcm.encrypted"), name ++ strL (".meta")⟩

/-- `as_array`. -/
def S3DataKeys.asArray (k : S3DataKeys) : List Key := [k.key, k.cipher, k.meta]

/-- `to_object_identifiers`: the builder is always given a key, so the
`BuildError` arm of the source is unreachable. -/
def S3DataKeys.toObjectIdentifiers (k : S3DataKeys) : List Key := k.asArray

/-- The transient `EncryptObject` (src/rust/src/lib.rs). -/
structure EncryptObject where
  dataKey : Body
  aesGcmCiphertext : Body
  meta : Bytes

/-- A computation outcome that may instead be a Rust panic
(`GenericArray::from_slice` asserts its slice length). -/
inductive PanicOr (α : Type) where
  | panic
  | res (val : α)
deriving DecidableEq

/-- `Vault::exists`: one `HeadObject` on `<prefix+name>.key`; `Ok` maps
to `true`, the typed not-found service error to `false`, anything else
surfaces as `S3HeadObjectError`. -/
def Vault.exists (v : Vault) (env : Env) (name : Key) :
    Except VaultError Bool × List Request :=
  let key := v.fullKeyName name ++ strL (".key")
  let res : Except VaultError Bool :=
    match env.headRes key with
    | .ok => .ok true
    | .notFound => .ok false
    | .other e => .error (.s3HeadObject e)
  (res, [.headObject v.bucketName key])

/-- `Vault::encrypt`: `GenerateDataKey` (spec `AES_256`), then the ideal
AEAD seal with a fresh 12-byte `nonce` (passed in for the RNG) and
`AAD = Meta::aesgcm(nonce).to_json()` bytes. `new_from_slice` demands a
32-byte key. -/
def Vault.encrypt (v : Vault) (env : Env) (nonce : Bytes) (data : Bytes) :
    Except VaultError EncryptObject × List Request :=
  match v.keyArn with
  | none => (.error .keyARNMissing, [])
  | some arn =>
      let req := Request.generateDataKey arn (strL ("AES_256"))
      match env.genRes with
      | .error e => (.error (.kmsGenerateDataKey e), [req])
      | .ok out =>
          match out.plaintext with
          | none => (.error .kmsDataKeyPlainTextMissing, [req])
          | some pk =>
              if pk.length = 32 then
                let meta := (Meta.aesgcm nonce).toJson
                let ct := gcmSeal pk nonce meta data
                match out.ciphertextBlob with
                | none => (.error .ciphertextEncryption, [req])
                | some blob => (.ok ⟨blob, ct, meta⟩, [req])
              else (.error .invalidNonceLength, [req])

/-- `Vault::store`: encrypt, then the three object writes. The writes
are issued concurrently and joined (`tokio::try_join!`); the model
records all three outcomes, applies every successful write to the object
map (the keys are distinct), and reports the first error in the source's
argument order (cipher, key, meta). -/
def Vault.store (v : Vault) (env : Env) (nonce : Bytes) (name : Key)
    (data : Bytes) : Except VaultError Unit × Env × List Request :=
  match Vault.encrypt v env nonce data with
  | (.error e, tr) => (.error e, env, tr)
  | (.ok enc, tr) =>
      let keys := S3DataKeys.new (v.fullKeyName name)
      let (rc, env1) := env.putObj keys.cipher enc.aesGcmCiphertext
      let (rk, env2) := env1.putObj keys.key enc.dataKey
      let (rm, env3) := env2.putObj keys.meta (.bytes enc.meta)
      let tr := tr ++
        [.putObject v.bucketName keys.cipher enc.aesGcmCiphertext (strL ("private")),
         .putObject v.bucketName keys.key enc.dataKey (strL ("private")),
         .putObject v.bucketName keys.meta (.bytes enc.meta) (strL ("private"))]
      let res : Except VaultError Unit :=
        match rc with
        | some e => .error (.s3PutObject e)
        | none =>
            match rk with
            | some e => .error (.s3PutObject e)
            | none =>
                match rm with
                | some e => .error (.s3PutObject e)
                | none => .ok ()
      (res, env3, tr)

/-- `Vault::delete`: pre-flight `exists`; absence is the typed
key-does-not-exist error (`S3DeleteObjectKeyMissingError`) and nothing
further happens; otherwise one batched `DeleteObjects` naming the three
sibling identifiers. -/
def Vault.delete (v : Vault) (env : Env) (name : Key) :
    Except VaultError Unit × Env × List Request :=
  match Vault.exists v env name with
  | (.error e, tr) => (.error e, env, tr)
  | (.ok false, tr) => (.error .s3DeleteObjectKeyMissing, env, tr)
  | (.ok true, tr) =>
      let ids := (S3DataKeys.new (v.fullKeyName name)).toObjectIdentifiers
      let req := Request.deleteObjects v.bucketName ids
      match env.delRes with
      | some e => (.error (.s3DeleteObjects e), env, tr ++ [req])
      | none =>
          (.ok (), { env with
                     objects := env.objects.filter (fun kv => !ids.contains kv.1) },
           tr ++ [req])

/-- `Vault::lookup`: three concurrent gets joined in argument order
(data key, ciphertext, meta); parse the sidecar `Meta` from the fetched
bytes; KMS-decrypt the wrapped key; build the cipher (32-byte key);
base64-decode the parsed nonce; `Nonce::from_slice` (asserts length 12:
`panic` otherwise); open with `AAD = the exact fetched meta bytes`;
classify the plaintext as `Value`. -/
def Vault.lookup (v : Vault) (env : Env) (name : Key) :
    PanicOr (Except VaultError Value) :=
  let keys := S3DataKeys.new (v.fullKeyName name)
  match env.getObj keys.key with
  | .error e => .res (.error e)
  | .ok dataKey =>
      match env.getObj keys.cipher with
      | .error e => .res (.error e)
      | .ok cipherText =>
          match env.getObj keys.meta with
          | .error e => .res (.error e)
          | .ok metaBody =>
              match metaBody with
              | .bytes metaAdd =>
                  match parseMeta metaAdd with
                  | none => .res (.error .encryptObjectMetaToJson)
                  | some meta =>
                      match env.kmsDecryptCall dataKey with
                      | .error e => .res (.error e)
                      | .ok pk =>
                          if pk.length = 32 then
                            match b64decode meta.nonce with
                            | none => .res (.error .nonceParse)
                            | some nonce =>
                                if nonce.length = 12 then
                                  match gcmOpen pk nonce metaAdd cipherText with
                                  | some msg => .res (.ok (Value.new msg))
                                  | none => .res (.error .nonceDecrypt)
                                else .panic
                          else .res (.error .invalidNonceLength)
              | _ => .res (.error .encryptObjectMetaToJson)

/-- Rust `str::strip_suffix`: `some front` iff `k = front ++ suf`. -/
def stripSuffixL (k suf : Key) : Option Key :=
  if suf.length ≤ k.length ∧ k.drop (k.length - suf.length) = suf then
    some (k.take (k.length - suf.length))
  else none

/-- `Vault::all`: a single `ListObjectsV2` on the bucket (no
continuation token, no prefix filter), keeping keys that end in
`.aesgcm.encrypted` with the suffix stripped (the source's
`ends_with` guard followed by `strip_suffix` is `strip_suffix` alone). -/
def Vault.all (v : Vault) (env : Env) : Except VaultError (List Key) × List Request :=
  let req := Request.listObjectsV2 v.bucketName none
  match env.listRes none with
  | .error e => (.error (.s3ListObjects e), [req])
  | .ok page =>
      (.ok (page.contents.filterMap
              (fun o => o.bind (fun k => stripSuffixL k (strL (".aesgcm.encrypted"))))),
       [req])

/-- The bucket's full listing: what following `ListObjectsV2` pagination
(continuation tokens until `is_truncated` is false) to exhaustion
returns. `fuel` bounds the page count. -/
def bucketListing (env : Env) : Nat → Option Key →
    Except VaultError (List (Option Key))
  | 0, _ => .ok []
  | fuel + 1, token =>
      match env.listRes token with
      | .error e => .error (.s3ListObjects e)
      | .ok page =>
          if page.isTruncated then
            match bucketListing env fuel page.nextContinuationToken with
            | .ok more => .ok (page.contents ++ more)
            | .error e => .error e
          else .ok page.contents

/-! ## The stack controller (`Vault::update_stack`) -/

/-- One entry of a CloudFormation stack's `outputs`. -/
structure StackOutputEntry where
  outputKey : Option Key
  outputValue : Option Key

/-- One stack of a `DescribeStacks` response. -/
structure StackDescription where
  stackStatus : Option Key
  stackStatusReason : Option Key
  outputs : Option (List StackOutputEntry)

/-- A `DescribeStacks` response (source field `stacks`; renamed, the
plain name is reserved here). -/
structure DescribeStacksOutput where
  stacksField : Option (List StackDescription)

/-- `CloudFormationStackData` (all fields default to `None`). -/
structure CloudFormationStackData where
  bucketName : Option Key := none
  keyArn : Option Key := none
  version : Option Nat := none
  status : Option Key := none
  statusReason : Option Key := none

/-- Rust `str::parse::<u32>`: optional sign, one or more ASCII digits,
value within `u32` range. -/
def parseU32 (s : Key) : Option Nat :=
  let digits := match s with
    | '+' :: r => r
    | _ => s
  if digits ≠ [] ∧ digits.all (fun c => '0' ≤ c ∧ c ≤ '9') then
    let v := digits.foldl (fun a c => a * 10 + (c.toNat - 48)) 0
    if v < 4294967296 then some v else none
  else none

/-- `get_cloudformation_stack_data` applied to a `DescribeStacks`
response: status and reason come from the first stack, and each output
entry keyed `vaultBucketName` / `kmsKeyArn` / `vaultStackVersion`
(latest entry wins, version only when it parses as `u32`) fills the
corresponding field. -/
def getCloudFormationStackData (out : DescribeStacksOutput) :
    CloudFormationStackData :=
  match out.stacksField with
  | none => {}
  | some ss =>
      match ss.head? with
      | none => {}
      | some stack =>
          let base : CloudFormationStackData :=
            { status := stack.stackStatus, statusReason := stack.stackStatusReason }
          match stack.outputs with
          | none => base
          | some outs =>
              outs.foldl
                (fun d o =>
                  match o.outputKey with
                  | none => d
                  | some k =>
                      if k = strL ("vaultBucketName") then
                        match o.outputValue with
                        | some bv => { d with bucketName := some bv }
                        | none => d
                      else if k = strL ("kmsKeyArn") then
                        match o.outputValue with
                        | some kv => { d with keyArn := some kv }
                        | none => d
                      else if k = strL ("vaultStackVersion") then
                        match o.outputValue with
                        | some vv =>
                            match parseU32 vv with
                            | some ver => { d with version := some ver }
                            | none => d
                        | none => d
                      else d)
                base

/-- Modelled from the spec: the CloudFormation template body from the
`template` module, which is not among the provided sources; the core
consumes it as an opaque string. -/
def template : Key := strL ("vault-cloudformation-template-body")

/-- Modelled from the spec: the embedded template version constant
`VAULT_STACK_VERSION` from the missing `template` module. Its numeric
value is not in the provided sources; no claim depends on the value,
only on comparisons against the deployed version. -/
def VAULT_STACK_VERSION : Nat := 4

/-- CloudFormation stack capabilities passed by `update_stack`. -/
inductive Capability where
  | capabilityIam
  | capabilityNamedIam
deriving DecidableEq

/-- A CloudFormation request issued by the stack controller. -/
inductive CfRequest where
  | describeStacks (stackName : Key)
  | updateStack (stackName : Key) (templateBody : Key) (usePreviousValue : Bool)
      (capabilities : List Capability)
deriving DecidableEq

/-- The CloudFormation client oracle. -/
structure CfEnv where
  describeRes : Except Nat DescribeStacksOutput
  updateRes : Except Nat (Option Key)

/-- `Vault::update_stack`: read the stack data (one `DescribeStacks`),
require the deployed `version`, and submit `UpdateStack` (current
template body, `use_previous_value = true`, IAM + Named-IAM
capabilities) exactly when the deployed version is strictly below
`VAULT_STACK_VERSION`; otherwise report up to date with no update call. -/
def Vault.updateStack (v : Vault) (env : CfEnv) :
    Except VaultError Unit × List CfRequest :=
  let descReq := CfRequest.describeStacks v.stackName
  match env.describeRes with
  | .error e => (.error (.describeStack e), [descReq])
  | .ok out =>
      let stackData := getCloudFormationStackData out
      match stackData.version with
      | none => (.error .stackVersionNotFound, [descReq])
      | some deployedVersion =>
          if deployedVersion < VAULT_STACK_VERSION then
            let req := CfRequest.updateStack v.stackName template true
              [.capabilityIam, .capabilityNamedIam]
            match env.updateRes with
            | .error e => (.error (.updateStackFailed e), [descReq, req])
            | .ok _ => (.ok (), [descReq, req])
          else (.ok (), [descReq])

/-! ## Helper lemmas -/

@[simp] theorem lookupA_cons_self (k : Key) (b : Body) (l : List (Key × Body)) :
    lookupA ((k, b) :: l) k = some b := by
  simp [lookupA]

theorem lookupA_cons_ne (k k' : Key) (b : Body) (l : List (Key × Body))
    (h : k' ≠ k) : lookupA ((k', b) :: l) k = lookupA l k := by
  simp [lookupA, h]

theorem append_ne_of_suffix_ne (n : Key) (s t : Key) (h : s ≠ t) :
    n ++ s ≠ n ++ t := by
  intro he
  exact h (List.append_cancel_left he)

theorem sdk_key_ne_cipher (n : Key) :
    (S3DataKeys.new n).key ≠ (S3DataKeys.new n).cipher :=
  append_ne_of_suffix_ne n _ _ (by decide)

theorem sdk_key_ne_meta (n : Key) :
    (S3DataKeys.new n).key ≠ (S3DataKeys.new n).meta :=
  append_ne_of_suffix_ne n _ _ (by decide)

theorem sdk_cipher_ne_meta (n : Key) :
    (S3DataKeys.new n).cipher ≠ (S3DataKeys.new n).meta :=
  append_ne_of_suffix_ne n _ _ (by decide)

/-- Setting a position to a different value changes the list. -/
theorem set_ne_of_get_ne : ∀ (l : Bytes) (i : Nat) (b : Nat) (hi : i < l.length),
    b ≠ l[i] → l.set i b ≠ l
  | a :: l, 0, b, _, hb => by
      intro he
      simp only [List.set_cons_zero] at he
      injection he with h1 _
      exact hb (by simpa using h1)
  | a :: l, i + 1, b, hi, hb => by
      have ih := set_ne_of_get_ne l i b (by simpa using hi) (by simpa using hb)
      intro he
      simp only [List.set_cons_succ] at he
      injection he with _ h2
      exact ih h2

/-- `jsonEscape` is the identity on safe bytes. -/
theorem jsonEscape_safe : ∀ (s : Bytes), (∀ c ∈ s, jsonSafe c) → jsonEscape s = s
  | [], _ => rfl
  | c :: r, h => by
      have hc : jsonSafe c := h c (by simp)
      obtain ⟨h1, h2, h3, _⟩ := hc
      have hr := jsonEscape_safe r (fun x hx => h x (by simp [hx]))
      have h8 : c ≠ 8 := by omega
      have h12 : c ≠ 12 := by omega
      have h10 : c ≠ 10 := by omega
      have h13 : c ≠ 13 := by omega
      have h9 : c ≠ 9 := by omega
      have hlt : ¬ c < 32 := by omega
      simp [jsonEscape, escapeByte, h2, h3, h8, h12, h10, h13, h9, hlt, hr]

/-- A safe byte sequence inside a JSON string parses as itself, ending at
the next quote. -/
theorem parseStrBody_safe : ∀ (s : Bytes) (rest : Bytes),
    (∀ c ∈ s, jsonSafe c) → parseStrBody (s ++ 34 :: rest) = some (s, rest)
  | [], rest, _ => by
      simp only [List.nil_append]
      rw [parseStrBody.eq_def]
      simp
  | c :: s, rest, h => by
      obtain ⟨h1, h2, h3, _⟩ := h c (by simp)
      have ih := parseStrBody_safe s rest (fun x hx => h x (by simp [hx]))
      have hlt : ¬ c < 32 := by omega
      simp only [List.cons_append]
      rw [parseStrBody.eq_def]
      simp [h2, h3, hlt, ih]

/-- A quoted safe string parses as a JSON string value. -/
theorem parseJValue_str (n : Nat) (hn : 1 ≤ n) (s rest : Bytes)
    (hs : ∀ c ∈ s, jsonSafe c) :
    parseJValue n (34 :: (s ++ 34 :: rest)) = some (.str s, rest) := by
  obtain ⟨f, rfl⟩ : ∃ f, n = f + 1 := ⟨n - 1, by omega⟩
  rw [parseJValue.eq_def]
  simp [skipWs, isJWs, parseStrBody_safe s rest hs]

/-- The `"nonce": "<s>"` member followed by the closing brace. -/
theorem parseJMembers_nonce (n : Nat) (hn : 2 ≤ n) (s rest : Bytes)
    (hs : ∀ c ∈ s, jsonSafe c) :
    parseJMembers n
      (34 :: (strB ("nonce") ++ 34 :: 58 :: 34 :: (s ++ 34 :: 125 :: rest))) =
      some ([(strB ("nonce"), .str s)], rest) := by
  obtain ⟨f, rfl⟩ : ∃ f, n = f + 1 := ⟨n - 1, by omega⟩
  rw [parseJMembers.eq_def]
  simp [skipWs, isJWs,
    parseStrBody_safe (strB ("nonce")) (58 :: 34 :: (s ++ 34 :: 125 :: rest))
      (by decide),
    parseJValue_str f (by omega) s (125 :: rest) hs]

/-- The `"alg": "<alg>", "nonce": "<s>"` member list followed by the
closing brace. -/
theorem parseJMembers_alg_nonce (n : Nat) (hn : 3 ≤ n) (alg s rest : Bytes)
    (ha : ∀ c ∈ alg, jsonSafe c) (hs : ∀ c ∈ s, jsonSafe c) :
    parseJMembers n
      (34 :: (strB ("alg") ++ 34 :: 58 :: 34 ::
        (alg ++ 34 :: 44 :: 34 ::
          (strB ("nonce") ++ 34 :: 58 :: 34 :: (s ++ 34 :: 125 :: rest))))) =
      some ([(strB ("alg"), .str alg), (strB ("nonce"), .str s)], rest) := by
  obtain ⟨f, rfl⟩ : ∃ f, n = f + 1 := ⟨n - 1, by omega⟩
  rw [parseJMembers.eq_def]
  simp [skipWs, isJWs,
    parseStrBody_safe (strB ("alg"))
      (58 :: 34 :: (alg ++ 34 :: 44 :: 34 ::
        (strB ("nonce") ++ 34 :: 58 :: 34 :: (s ++ 34 :: 125 :: rest))))
      (by decide),
    parseJValue_str f (by omega) alg
      (44 :: 34 :: (strB ("nonce") ++ 34 :: 58 :: 34 :: (s ++ 34 :: 125 :: rest))) ha,
    parseJMembers_nonce f (by omega) s rest hs]

/-- The canonical two-field meta document parses to the expected object. -/
theorem parseJValue_metaDoc (n : Nat) (hn : 4 ≤ n) (alg s rest : Bytes)
    (ha : ∀ c ∈ alg, jsonSafe c) (hs : ∀ c ∈ s, jsonSafe c) :
    parseJValue n
      (123 :: 34 :: (strB ("alg") ++ 34 :: 58 :: 34 ::
        (alg ++ 34 :: 44 :: 34 ::
          (strB ("nonce") ++ 34 :: 58 :: 34 :: (s ++ 34 :: 125 :: rest))))) =
      some (.obj [(strB ("alg"), .str alg), (strB ("nonce"), .str s)], rest) := by
  obtain ⟨f, rfl⟩ : ∃ f, n = f + 1 := ⟨n - 1, by omega⟩
  rw [parseJValue.eq_def]
  simp [skipWs, isJWs, parseJMembers_alg_nonce f (by omega) alg s rest ha hs]

/-- `serde` round-trip for the sidecar meta: serialising a `Meta` whose
fields are safe bytes and parsing it back returns the same `Meta`. -/
theorem parseMeta_toJson (alg s : Bytes) (ha : ∀ c ∈ alg, jsonSafe c)
    (hs : ∀ c ∈ s, jsonSafe c) :
    parseMeta (Meta.toJson ⟨alg, s⟩) = some ⟨alg, s⟩ := by
  have hdoc : Meta.toJson ⟨alg, s⟩ =
      123 :: 34 :: (strB ("alg") ++ 34 :: 58 :: 34 ::
        (alg ++ 34 :: 44 :: 34 ::
          (strB ("nonce") ++ 34 :: 58 :: 34 :: (s ++ 34 :: 125 :: ([] : Bytes))))) := by
    simp [Meta.toJson, strB, jsonEscape_safe alg ha, jsonEscape_safe s hs]
  rw [parseMeta, hdoc]
  have hn : 4 ≤ (123 :: 34 :: (strB ("alg") ++ 34 :: 58 :: 34 ::
      (alg ++ 34 :: 44 :: 34 ::
        (strB ("nonce") ++ 34 :: 58 :: 34 :: (s ++ 34 :: 125 :: ([] : Bytes)))))).length + 1 := by
    simp
    omega
  rw [parseJValue_metaDoc _ hn alg s [] ha hs]
  have h1 : strB ("nonce") ≠ strB ("alg") := by decide
  have h2 : strB ("alg") ≠ strB ("nonce") := by decide
  simp [skipWs, metaFromJson, List.filter, h1, h2]

/-! ## Concrete fixtures for witnesses and counterexamples -/

/-- A configured vault (key ARN present, empty prefix). -/
def vA : Vault :=
  ⟨strL ("eu-west-1"), [], strL ("vault-bucket"), some (strL ("arn-vault-key")),
   strL ("vault")⟩

/-- A 32-byte data-key plaintext. -/
def pk32 : Bytes := List.replicate 32 7

/-- A 12-byte nonce. -/
def nonce12 : Bytes := List.replicate 12 0

/-- A fault-free environment over an empty bucket. -/
def envBase : Env :=
  { objects := []
    headRes := fun _ => .notFound
    getFault := fun _ => none
    putRes := fun _ => none
    delRes := none
    listRes := fun _ => .ok ⟨[], false, none⟩
    genRes := .ok ⟨some pk32, some (.wrapped pk32)⟩
    kmsFault := none }

/-! ## The claims -/

/-- C4: for every name `n`, `exists(n)` issues exactly one HEAD request,
on the object `<prefix+n>.key`, and consults no other object: it returns
`true` when the HEAD succeeds, `false` when the service returns the typed
not-found error, and surfaces every other service error unchanged. -/
theorem claim4_exists_head_contract (v : Vault) (env : Env) (n : Key) :
    (Vault.exists v env n).2 =
      [.headObject v.bucketName (v.fullKeyName n ++ strL (".key"))] ∧
    (env.headRes (v.fullKeyName n ++ strL (".key")) = .ok →
      (Vault.exists v env n).1 = .ok true) ∧
    (env.headRes (v.fullKeyName n ++ strL (".key")) = .notFound →
      (Vault.exists v env n).1 = .ok false) ∧
    (∀ e, env.headRes (v.fullKeyName n ++ strL (".key")) = .other e →
      (Vault.exists v env n).1 = .error (.s3HeadObject e)) := by
  refine ⟨rfl, ?_, ?_, ?_⟩
  · intro h
    simp [Vault.exists, h]
  · intro h
    simp [Vault.exists, h]
  · intro e h
    simp [Vault.exists, h]

/-- C4 witness: concrete evaluations of the `exists` contract. -/
theorem claim4_exists_head_contract_witness :
    (Vault.exists vA { envBase with headRes := fun _ => .ok } (strL ("x"))).1 =
      .ok true ∧
    (Vault.exists vA envBase (strL ("x"))).1 = .ok false :=
  ⟨(claim4_exists_head_contract vA { envBase with headRes := fun _ => .ok }
      (strL ("x"))).2.1 rfl,
   (claim4_exists_head_contract vA envBase (strL ("x"))).2.2.1 rfl⟩

/-- C5: `delete(n)` first evaluates `exists(n)`; if that returns `false`
(the typed not-found), delete returns the key-does-not-exist error
(`S3DeleteObjectKeyMissingError`) without issuing any delete request and
with the store unchanged; if `exists` returns `true`, delete issues a
single batched delete request naming exactly the three sibling object
identifiers derived from `prefix+n`. -/
theorem claim5_delete_contract (v : Vault) (env : Env) (n : Key) :
    (env.headRes (v.fullKeyName n ++ strL (".key")) = .notFound →
      Vault.delete v env n =
        (.error .s3DeleteObjectKeyMissing, env,
         [.headObject v.bucketName (v.fullKeyName n ++ strL (".key"))])) ∧
    (env.headRes (v.fullKeyName n ++ strL (".key")) = .ok →
      (Vault.delete v env n).2.2 =
        [.headObject v.bucketName (v.fullKeyName n ++ strL (".key")),
         .deleteObjects v.bucketName
           [v.fullKeyName n ++ strL (".key"),
            v.fullKeyName n ++ strL (".aesgcm.encrypted"),
            v.fullKeyName n ++ strL (".meta")]]) := by
  constructor
  · intro h
    simp [Vault.delete, Vault.exists, h]
  · intro h
    cases hd : env.delRes <;>
      simp [Vault.delete, Vault.exists, h, hd, S3DataKeys.toObjectIdentifiers,
        S3DataKeys.asArray, S3DataKeys.new]

/-- C5 witness: both branches of the `delete` contract at concrete
inputs. -/
theorem claim5_delete_contract_witness :
    Vault.delete vA envBase (strL ("x")) =
      (.error .s3DeleteObjectKeyMissing, envBase,
       [.headObject (strL ("vault-bucket")) (strL ("x.key"))]) ∧
    (Vault.delete vA { envBase with headRes := fun _ => .ok } (strL ("x"))).2.2 =
      [.headObject (strL ("vault-bucket")) (strL ("x.key")),
       .deleteObjects (strL ("vault-bucket"))
         [strL ("x.key"), strL ("x.aesgcm.encrypted"), strL ("x.meta")]] :=
  ⟨(claim5_delete_contract vA envBase (strL ("x"))).1 rfl,
   (claim5_delete_contract vA { envBase with headRes := fun _ => .ok }
      (strL ("x"))).2 rfl⟩

/-- C10: when `<prefix+n>.key` is absent while the sibling ciphertext and
meta objects exist (and the HEAD oracle reflects the object map),
`delete(n)` returns the key-does-not-exist error, issues no delete
request, and leaves the orphan siblings in the bucket. -/
theorem claim10_delete_leaves_orphans (v : Vault) (env : Env) (n : Key)
    (bc bm : Body)
    (hhead : env.headRes = fun k =>
      if (lookupA env.objects k).isSome then .ok else .notFound)
    (hkey : lookupA env.objects (v.fullKeyName n ++ strL (".key")) = none)
    (hcipher : lookupA env.objects
      (v.fullKeyName n ++ strL (".aesgcm.encrypted")) = some bc)
    (hmeta : lookupA env.objects (v.fullKeyName n ++ strL (".meta")) = some bm) :
    Vault.delete v env n =
      (.error .s3DeleteObjectKeyMissing, env,
       [.headObject v.bucketName (v.fullKeyName n ++ strL (".key"))]) ∧
    lookupA (Vault.delete v env n).2.1.objects
      (v.fullKeyName n ++ strL (".aesgcm.encrypted")) = some bc ∧
    lookupA (Vault.delete v env n).2.1.objects
      (v.fullKeyName n ++ strL (".meta")) = some bm := by
  have h : Vault.delete v env n =
      (.error .s3DeleteObjectKeyMissing, env,
       [.headObject v.bucketName (v.fullKeyName n ++ strL (".key"))]) := by
    simp [Vault.delete, Vault.exists, hhead, hkey]
  refine ⟨h, ?_, ?_⟩ <;> rw [h] <;> assumption

/-- C10 witness: a concrete orphaned pair survives the failed delete. -/
theorem claim10_delete_leaves_orphans_witness :
    Vault.delete vA
      { envBase with
        objects := [(strL ("x.aesgcm.encrypted"), .bytes [1]),
                    (strL ("x.meta"), .bytes [2])]
        headRes := fun k =>
          if (lookupA [(strL ("x.aesgcm.encrypted"), Body.bytes [1]),
                       (strL ("x.meta"), Body.bytes [2])] k).isSome
          then .ok else .notFound }
      (strL ("x")) =
      (.error .s3DeleteObjectKeyMissing,
       { envBase with
         objects := [(strL ("x.aesgcm.encrypted"), .bytes [1]),
                     (strL ("x.meta"), .bytes [2])]
         headRes := fun k =>
           if (lookupA [(strL ("x.aesgcm.encrypted"), Body.bytes [1]),
                        (strL ("x.meta"), Body.bytes [2])] k).isSome
           then .ok else .notFound },
       [.headObject (strL ("vault-bucket")) (strL ("x.key"))]) :=
  (claim10_delete_leaves_orphans vA _ (strL ("x")) (.bytes [1]) (.bytes [2])
    rfl (by decide) (by decide) (by decide)).1

/-- C8: `update_stack` requires the deployed stack's version output: if
it is absent the operation fails with `StackVersionNotFound` (and no
update call is made); it submits an `UpdateStack` request (current
template body, previous parameter values, IAM + Named-IAM capabilities)
if and only if the deployed version is strictly less than the embedded
template version constant, and otherwise makes no update call and
reports the stack as up to date (returns success after only the
describe). -/
theorem claim8_update_stack_contract (v : Vault) (env : CfEnv)
    (out : DescribeStacksOutput) (hdesc : env.describeRes = .ok out) :
    ((getCloudFormationStackData out).version = none →
      Vault.updateStack v env =
        (.error .stackVersionNotFound, [.describeStacks v.stackName])) ∧
    (∀ dv, (getCloudFormationStackData out).version = some dv →
      ((dv < VAULT_STACK_VERSION →
          (Vault.updateStack v env).2 =
            [.describeStacks v.stackName,
             .updateStack v.stackName template true
               [.capabilityIam, .capabilityNamedIam]]) ∧
       (¬ dv < VAULT_STACK_VERSION →
          Vault.updateStack v env = (.ok (), [.describeStacks v.stackName])))) := by
  constructor
  · intro h
    simp [Vault.updateStack, hdesc, h]
  · intro dv h
    constructor
    · intro hlt
      cases hu : env.updateRes <;>
        simp [Vault.updateStack, hdesc, h, hlt, hu]
    · intro hge
      simp [Vault.updateStack, hdesc, h, hge]

/-- A deployed stack whose `vaultStackVersion` output is `"3"`. -/
def outV3 : DescribeStacksOutput :=
  ⟨some [⟨some (strL ("UPDATE_COMPLETE")), none,
    some [⟨some (strL ("vaultStackVersion")), some (strL ("3"))⟩]⟩]⟩

/-- A deployed stack with no version output. -/
def outNoV : DescribeStacksOutput :=
  ⟨some [⟨some (strL ("UPDATE_COMPLETE")), none, some []⟩]⟩

/-- C8 witness: the version-missing failure and the version-3 update at
concrete inputs. -/
theorem claim8_update_stack_contract_witness :
    Vault.updateStack vA ⟨.ok outNoV, .ok none⟩ =
      (.error .stackVersionNotFound, [.describeStacks (strL ("vault"))]) ∧
    (Vault.updateStack vA ⟨.ok outV3, .ok none⟩).2 =
      [.describeStacks (strL ("vault")),
       .updateStack (strL ("vault")) template true
         [.capabilityIam, .capabilityNamedIam]] :=
  ⟨(claim8_update_stack_contract vA ⟨.ok outNoV, .ok none⟩ outNoV rfl).1
     (by decide),
   ((claim8_update_stack_contract vA ⟨.ok outV3, .ok none⟩ outV3 rfl).2 3
     (by decide)).1 (by decide)⟩

/-- C7 counterexample: the file content `aGVsbG8=` is valid UTF-8, yet
`Value::from_path` does not return `Utf8` holding those bytes — the text
is valid base64, so the source base64-decodes it and returns
`Binary("hello")`. -/
theorem claim7_counterexample :
    Value.fromPath (strB ("aGVsbG8=")) = .ok (.binary (strB ("hello"))) ∧
    isValidUtf8 (strB ("aGVsbG8=")) = true ∧
    Value.binary (strB ("hello")) ≠ .utf8 (strB ("aGVsbG8=")) :=
  ⟨rfl, rfl, by decide⟩

/-- C7 (amended): `from_path` first reads the file as text; on valid
UTF-8 content it tries base64: if the whole text decodes, the decoded
bytes come back as `Binary`, otherwise the text comes back as `Utf8`
holding exactly the file bytes; non-UTF-8 content comes back as `Binary`
holding exactly the file bytes. `from_stdin` applies the same
classification to all bytes read from stdin until EOF. -/
theorem claim7_from_path_classification (content : Bytes) :
    (isValidUtf8 content = true → b64decode content = none →
      Value.fromPath content = .ok (.utf8 content) ∧
      Value.fromStdin content = .ok (.utf8 content)) ∧
    (∀ bs, isValidUtf8 content = true → b64decode content = some bs →
      Value.fromPath content = .ok (.binary bs) ∧
      Value.fromStdin content = .ok (.binary bs)) ∧
    (isValidUtf8 content = false →
      Value.fromPath content = .ok (.binary content) ∧
      Value.fromStdin content = .ok (.binary content)) := by
  refine ⟨?_, ?_, ?_⟩
  · intro hu hb
    simp [Value.fromPath, Value.fromStdin, Value.fromPossiblyBase64Encoded, hu, hb]
  · intro bs hu hb
    simp [Value.fromPath, Value.fromStdin, Value.fromPossiblyBase64Encoded, hu, hb]
  · intro hu
    simp [Value.fromPath, Value.fromStdin, hu]

/-- C7 witness: plain text that is not base64 comes back as `Utf8`, raw
non-UTF-8 bytes as `Binary`. -/
theorem claim7_from_path_classification_witness :
    (Value.fromPath (strB ("hi there")) = .ok (.utf8 (strB ("hi there"))) ∧
     Value.fromStdin (strB ("hi there")) = .ok (.utf8 (strB ("hi there")))) ∧
    (Value.fromPath [0, 255, 254, 128] = .ok (.binary [0, 255, 254, 128]) ∧
     Value.fromStdin [0, 255, 254, 128] = .ok (.binary [0, 255, 254, 128])) :=
  ⟨(claim7_from_path_classification (strB ("hi there"))).1 (by decide) (by decide),
   (claim7_from_path_classification [0, 255, 254, 128]).2.2 (by decide)⟩

theorem stripSuffixL_eq_some_iff (k suf p : Key) :
    stripSuffixL k suf = some p ↔ k = p ++ suf := by
  unfold stripSuffixL
  split_ifs with h
  · obtain ⟨hle, hdrop⟩ := h
    constructor
    · intro he
      injection he with he
      set n := k.length - suf.length with hn
      rw [← he, ← hdrop]
      exact (List.take_append_drop n k).symm
    · intro he
      subst he
      have hlen : (p ++ suf).length - suf.length = p.length := by
        simp
      rw [hlen]
      simp [List.take_left]
  · constructor
    · intro he
      exact absurd he (by simp)
    · intro he
      subst he
      exact absurd ⟨by simp, by simp [List.drop_left]⟩ h

/-- C6 counterexample: a bucket whose listing is truncated after the
first page. Following pagination, the bucket holds both
`a.aesgcm.encrypted` and `b.aesgcm.encrypted`, but `all()` issues a
single list request and reports only `a` — `b` is a matching object in
the bucket that is not reported. -/
theorem claim6_counterexample :
    (Vault.all vA
        { envBase with
          listRes := fun tok =>
            if tok = some (strL ("t"))
            then .ok ⟨[some (strL ("b.aesgcm.encrypted"))], false, none⟩
            else .ok ⟨[some (strL ("a.aesgcm.encrypted"))], true,
                      some (strL ("t"))⟩ }).1 = .ok [strL ("a")] ∧
    bucketListing
        { envBase with
          listRes := fun tok =>
            if tok = some (strL ("t"))
            then .ok ⟨[some (strL ("b.aesgcm.encrypted"))], false, none⟩
            else .ok ⟨[some (strL ("a.aesgcm.encrypted"))], true,
                      some (strL ("t"))⟩ } 2 none =
      .ok [some (strL ("a.aesgcm.encrypted")), some (strL ("b.aesgcm.encrypted"))] ∧
    strL ("b") ∉ [strL ("a")] := by
  refine ⟨?_, ?_, by decide⟩
  · rfl
  · rfl

/-- C6 (amended): `all()` issues exactly one `ListObjectsV2` request
(no continuation token) and returns, from that first response page
alone, exactly the keys ending in `.aesgcm.encrypted` with that suffix
stripped and the configured prefix not stripped; pagination is not
followed. -/
theorem claim6_all_first_page (v : Vault) (env : Env) (page : ListPage)
    (hp : env.listRes none = .ok page) :
    (Vault.all v env).2 = [.listObjectsV2 v.bucketName none] ∧
    ∃ l, (Vault.all v env).1 = .ok l ∧
      ∀ s : Key, s ∈ l ↔ some (s ++ strL (".aesgcm.encrypted")) ∈ page.contents := by
  constructor
  · simp [Vault.all, hp]
  refine ⟨page.contents.filterMap
      (fun o => o.bind (fun k => stripSuffixL k (strL (".aesgcm.encrypted")))),
    by simp [Vault.all, hp], ?_⟩
  intro s
  simp only [List.mem_filterMap, Option.bind_eq_some, stripSuffixL_eq_some_iff]
  constructor
  · rintro ⟨o, ho, k, rfl, rfl⟩
    exact ho
  · intro h
    exact ⟨some (s ++ strL (".aesgcm.encrypted")), h, _, rfl, rfl⟩

/-- A single final list page with one matching and one non-matching key. -/
def pageList1 : ListPage :=
  ⟨[some (strL ("a.aesgcm.encrypted")), some (strL ("a.key")), none], false, none⟩

/-- An environment serving that single page. -/
def envList1 : Env := { envBase with listRes := fun _ => .ok pageList1 }

/-- C6 witness: on a single final page, `all()` reports the stripped
matching keys. -/
theorem claim6_all_first_page_witness :
    (Vault.all vA envList1).2 = [.listObjectsV2 (strL ("vault-bucket")) none] ∧
    ∃ l, (Vault.all vA envList1).1 = .ok l ∧
      ∀ s : Key, s ∈ l ↔
        some (s ++ strL (".aesgcm.encrypted")) ∈ pageList1.contents :=
  claim6_all_first_page vA envList1 pageList1 rfl

/-- C3: with no key ARN configured, `store` fails with `KeyArnMissing`
and issues no request at all (in particular no object-store write); with
a key ARN configured, `store` reports success if and only if the three
object writes were issued and all succeeded, and — whenever the writes
are issued — its result is the first error among them in the source's
join order (cipher, key, meta), success only when none failed. -/
theorem claim3_store_error_semantics (v : Vault) (env : Env) (nonce : Bytes)
    (n : Key) (d : Bytes) :
    (v.keyArn = none →
      Vault.store v env nonce n d = (.error .keyARNMissing, env, [])) ∧
    (∀ arn, v.keyArn = some arn →
      ((Vault.store v env nonce n d).1 = .ok () ↔
        ((∃ b, .putObject v.bucketName (S3DataKeys.new (v.fullKeyName n)).cipher b
            (strL ("private")) ∈ (Vault.store v env nonce n d).2.2) ∧
         env.putRes (S3DataKeys.new (v.fullKeyName n)).cipher = none ∧
         env.putRes (S3DataKeys.new (v.fullKeyName n)).key = none ∧
         env.putRes (S3DataKeys.new (v.fullKeyName n)).meta = none))) ∧
    (∀ arn pk blob, v.keyArn = some arn →
      env.genRes = .ok ⟨some pk, some blob⟩ → pk.length = 32 →
      (Vault.store v env nonce n d).2.2 =
        [.generateDataKey arn (strL ("AES_256")),
         .putObject v.bucketName (S3DataKeys.new (v.fullKeyName n)).cipher
           (gcmSeal pk nonce ((Meta.aesgcm nonce).toJson) d) (strL ("private")),
         .putObject v.bucketName (S3DataKeys.new (v.fullKeyName n)).key blob
           (strL ("private")),
         .putObject v.bucketName (S3DataKeys.new (v.fullKeyName n)).meta
           (.bytes ((Meta.aesgcm nonce).toJson)) (strL ("private"))] ∧
      (Vault.store v env nonce n d).1 =
        (match env.putRes (S3DataKeys.new (v.fullKeyName n)).cipher with
         | some e => .error (.s3PutObject e)
         | none =>
             match env.putRes (S3DataKeys.new (v.fullKeyName n)).key with
             | some e => .error (.s3PutObject e)
             | none =>
                 match env.putRes (S3DataKeys.new (v.fullKeyName n)).meta with
                 | some e => .error (.s3PutObject e)
                 | none => .ok ())) := by
  refine ⟨?_, ?_, ?_⟩
  · intro h
    simp [Vault.store, Vault.encrypt, h]
  · intro arn harn
    rcases hg : env.genRes with e | ⟨p, cb⟩
    · simp [Vault.store, Vault.encrypt, harn, hg]
    · rcases p with _ | pk
      · simp [Vault.store, Vault.encrypt, harn, hg]
      · by_cases hlen : pk.length = 32
        · rcases cb with _ | blob
          · simp [Vault.store, Vault.encrypt, harn, hg, hlen]
          · rcases hc : env.putRes (S3DataKeys.new (v.fullKeyName n)).cipher with _ | e <;>
              rcases hk : env.putRes (S3DataKeys.new (v.fullKeyName n)).key with _ | e' <;>
                rcases hm : env.putRes (S3DataKeys.new (v.fullKeyName n)).meta with _ | e'' <;>
                  simp [Vault.store, Vault.encrypt, Env.putObj, harn, hg, hlen,
                    hc, hk, hm]
        · simp [Vault.store, Vault.encrypt, harn, hg, hlen]
  · intro arn pk blob harn hg hlen
    rcases hc : env.putRes (S3DataKeys.new (v.fullKeyName n)).cipher with _ | e <;>
      rcases hk : env.putRes (S3DataKeys.new (v.fullKeyName n)).key with _ | e' <;>
        rcases hm : env.putRes (S3DataKeys.new (v.fullKeyName n)).meta with _ | e'' <;>
          simp [Vault.store, Vault.encrypt, Env.putObj, harn, hg, hlen, hc, hk, hm]

/-- C3 witness: the missing-ARN failure, a fault-free success, and a
first-error case at concrete inputs. -/
theorem claim3_store_error_semantics_witness :
    (Vault.store { vA with keyArn := none } envBase nonce12 (strL ("x")) (strB ("v")) =
      (.error .keyARNMissing, envBase, [])) ∧
    ((Vault.store vA envBase nonce12 (strL ("x")) (strB ("v"))).1 = .ok () ↔
      ((∃ b, .putObject (strL ("vault-bucket")) (strL ("x.aesgcm.encrypted")) b
          (strL ("private")) ∈
            (Vault.store vA envBase nonce12 (strL ("x")) (strB ("v"))).2.2) ∧
       envBase.putRes (strL ("x.aesgcm.encrypted")) = none ∧
       envBase.putRes (strL ("x.key")) = none ∧
       envBase.putRes (strL ("x.meta")) = none)) ∧
    (Vault.store vA
        { envBase with putRes := fun k => if k = strL ("x.key") then some 9 else none }
        nonce12 (strL ("x")) (strB ("v"))).1 = .error (.s3PutObject 9) := by
  refine ⟨?_, ?_, ?_⟩
  · exact (claim3_store_error_semantics { vA with keyArn := none } envBase nonce12
      (strL ("x")) (strB ("v"))).1 rfl
  · exact (claim3_store_error_semantics vA envBase nonce12
      (strL ("x")) (strB ("v"))).2.1 (strL ("arn-vault-key")) rfl
  · have h := ((claim3_store_error_semantics vA
        { envBase with putRes := fun k => if k = strL ("x.key") then some 9 else none }
        nonce12 (strL ("x")) (strB ("v"))).2.2 (strL ("arn-vault-key")) pk32
        (.wrapped pk32) rfl rfl (by decide)).2
    rw [h]
    rfl

/-- C1: for every name and every byte string `d`, when `store(n, d)`
succeeds (key ARN configured, KMS returns a 32-byte data key with its
wrapped form, the three writes succeed), a subsequent `lookup(n)` against
a fault-free store returns a `Value` whose `as_bytes()` equals `d`
exactly — as `Utf8` when `d` is valid UTF-8 and as `Binary` otherwise. -/
theorem claim1_store_lookup_roundtrip (v : Vault) (env : Env)
    (nonce pk : Bytes) (n : Key) (d : Bytes) (arn : Key)
    (harn : v.keyArn = some arn)
    (hgen : env.genRes = .ok ⟨some pk, some (.wrapped pk)⟩)
    (hpk : pk.length = 32)
    (hnl : nonce.length = 12)
    (hnb : ∀ b ∈ nonce, b < 256)
    (hput : ∀ k, env.putRes k = none)
    (hget : ∀ k, env.getFault k = none)
    (hkms : env.kmsFault = none) :
    (Vault.store v env nonce n d).1 = .ok () ∧
    Vault.lookup v (Vault.store v env nonce n d).2.1 n =
      .res (.ok (Value.new d)) ∧
    (Value.new d).asBytes = d ∧
    (isValidUtf8 d = true → Value.new d = .utf8 d) ∧
    (isValidUtf8 d = false → Value.new d = .binary d) := by
  have hne1 : (S3DataKeys.new (v.fullKeyName n)).meta ≠
      (S3DataKeys.new (v.fullKeyName n)).key :=
    (sdk_key_ne_meta (v.fullKeyName n)).symm
  have hne2 : (S3DataKeys.new (v.fullKeyName n)).meta ≠
      (S3DataKeys.new (v.fullKeyName n)).cipher :=
    (sdk_cipher_ne_meta (v.fullKeyName n)).symm
  have hne3 : (S3DataKeys.new (v.fullKeyName n)).key ≠
      (S3DataKeys.new (v.fullKeyName n)).cipher :=
    sdk_key_ne_cipher (v.fullKeyName n)
  have hmeta := parseMeta_toJson (strB ("AESGCM")) (b64encode nonce)
    (by decide) (b64encode_safe nonce hnb)
  have hdec := b64decode_encode nonce hnb
  have hobj : (Vault.store v env nonce n d).2.1.objects =
      ((S3DataKeys.new (v.fullKeyName n)).meta,
        .bytes ((Meta.aesgcm nonce).toJson)) ::
      ((S3DataKeys.new (v.fullKeyName n)).key, .wrapped pk) ::
      ((S3DataKeys.new (v.fullKeyName n)).cipher,
        gcmSeal pk nonce ((Meta.aesgcm nonce).toJson) d) :: env.objects := by
    simp [Vault.store, Vault.encrypt, Env.putObj, harn, hgen, hpk, hput]
  have hgetF : (Vault.store v env nonce n d).2.1.getFault = env.getFault := by
    simp [Vault.store, Vault.encrypt, Env.putObj, harn, hgen, hpk, hput]
  have hkmsF : (Vault.store v env nonce n d).2.1.kmsFault = env.kmsFault := by
    simp [Vault.store, Vault.encrypt, Env.putObj, harn, hgen, hpk, hput]
  refine ⟨?_, ?_, Value.asBytes_new d, ?_, ?_⟩
  · simp [Vault.store, Vault.encrypt, Env.putObj, harn, hgen, hpk, hput]
  · rw [Vault.lookup]
    simp only [Env.getObj, hgetF, hget, hobj, lookupA, hne1, hne2, hne3,
      if_neg, if_pos, Env.kmsDecryptCall, hkmsF, hkms]
    simp only [Meta.aesgcm, Meta.new] at hmeta ⊢
    simp [hmeta, hpk, hdec, hnl, gcmSeal, gcmOpen]
  · intro h
    simp [Value.new, h]
  · intro h
    simp [Value.new, h]

/-- C1 witness: a concrete UTF-8 round trip and a concrete binary round
trip through `store` then `lookup`. -/
theorem claim1_store_lookup_roundtrip_witness :
    (Vault.store vA envBase nonce12 (strL ("greeting")) (strB ("hello"))).1 =
      .ok () ∧
    Vault.lookup vA
        (Vault.store vA envBase nonce12 (strL ("greeting")) (strB ("hello"))).2.1
        (strL ("greeting")) =
      .res (.ok (.utf8 (strB ("hello")))) ∧
    Vault.lookup vA
        (Vault.store vA envBase nonce12 (strL ("blob")) [0, 255, 254, 128]).2.1
        (strL ("blob")) =
      .res (.ok (.binary [0, 255, 254, 128])) := by
  have h1 := claim1_store_lookup_roundtrip vA envBase nonce12 pk32
    (strL ("greeting")) (strB ("hello")) (strL ("arn-vault-key")) rfl rfl
    (by decide) (by decide) (by decide) (fun _ => rfl) (fun _ => rfl) rfl
  have h2 := claim1_store_lookup_roundtrip vA envBase nonce12 pk32
    (strL ("blob")) [0, 255, 254, 128] (strL ("arn-vault-key")) rfl rfl
    (by decide) (by decide) (by decide) (fun _ => rfl) (fun _ => rfl) rfl
  refine ⟨h1.1, ?_, ?_⟩
  · have := h1.2.1
    rwa [h1.2.2.2.1 (by decide)] at this
  · have := h2.2.1
    rwa [h2.2.2.2.2 (by decide)] at this

deriving instance DecidableEq for Except

/-- The canonical sidecar meta document of a stored secret with the
all-zero 12-byte nonce. -/
def m0 : Bytes := (Meta.aesgcm nonce12).toJson

/-- A bucket holding one secret whose `.meta` object had its first byte
(the `{`) overwritten with `a`, while the ciphertext was sealed with the
original meta bytes as AAD. -/
def envC2 : Env :=
  { envBase with objects :=
      [(strL ("s.key"), .wrapped pk32),
       (strL ("s.aesgcm.encrypted"), gcmSeal pk32 nonce12 m0 (strB ("v"))),
       (strL ("s.meta"), .bytes (m0.set 0 97))] }

/-- C2 counterexample: mutating a single byte of the `.meta` object does
not always yield `NonceDecryption` — overwriting the leading `{` makes
the sidecar unparseable, so `lookup` fails with the meta-JSON parse
error instead. -/
theorem claim2_counterexample :
    m0[0]? = some 123 ∧
    Vault.lookup vA envC2 (strL ("s")) =
      .res (.error .encryptObjectMetaToJson) ∧
    Vault.lookup vA envC2 (strL ("s")) ≠ .res (.error .nonceDecrypt) := by
  refine ⟨rfl, rfl, by decide⟩

/-- C2 (amended): the AAD `lookup` passes to AES-GCM decryption is
byte-for-byte the body of the `.meta` object as read from the object
store (never a re-serialisation of the parsed `Meta`); consequently, for
every stored secret, mutating any single byte of the `.meta` object
makes `lookup` fail — with the meta-JSON parse error when the mutated
bytes no longer parse as `Meta`, with the nonce-base64 error when the
parsed nonce no longer decodes, with `NonceDecryption` (the changed AAD
is rejected by the AEAD) when it decodes to 12 bytes, and by tripping
the cipher's nonce-length assertion otherwise; in no case does `lookup`
return a value. -/
theorem claim2_meta_mutation_fails (v : Vault) (env : Env) (n : Key)
    (pk nonce m d : Bytes) (i b : Nat)
    (hpk : pk.length = 32)
    (hkeyo : lookupA env.objects (S3DataKeys.new (v.fullKeyName n)).key =
      some (.wrapped pk))
    (hciph : lookupA env.objects (S3DataKeys.new (v.fullKeyName n)).cipher =
      some (gcmSeal pk nonce m d))
    (hmetao : lookupA env.objects (S3DataKeys.new (v.fullKeyName n)).meta =
      some (.bytes (m.set i b)))
    (hget : ∀ k, env.getFault k = none)
    (hkms : env.kmsFault = none)
    (hi : i < m.length) (hb : b ≠ m[i]) :
    (parseMeta (m.set i b) = none →
      Vault.lookup v env n = .res (.error .encryptObjectMetaToJson)) ∧
    (∀ mp, parseMeta (m.set i b) = some mp →
      (b64decode mp.nonce = none →
        Vault.lookup v env n = .res (.error .nonceParse)) ∧
      (∀ nn, b64decode mp.nonce = some nn →
        (nn.length = 12 → Vault.lookup v env n = .res (.error .nonceDecrypt)) ∧
        (nn.length ≠ 12 → Vault.lookup v env n = .panic))) ∧
    (∀ val, Vault.lookup v env n ≠ .res (.ok val)) := by
  have hne : m ≠ m.set i b := (set_ne_of_get_ne m i b hi hb).symm
  have hbase : Vault.lookup v env n =
      (match parseMeta (m.set i b) with
       | none => .res (.error .encryptObjectMetaToJson)
       | some meta =>
           if pk.length = 32 then
             match b64decode meta.nonce with
             | none => .res (.error .nonceParse)
             | some nn =>
                 if nn.length = 12 then
                   match gcmOpen pk nn (m.set i b) (gcmSeal pk nonce m d) with
                   | some msg => .res (.ok (Value.new msg))
                   | none => .res (.error .nonceDecrypt)
                 else .panic
           else .res (.error .invalidNonceLength)) := by
    rw [Vault.lookup]
    simp only [Env.getObj, hget, hkeyo, hciph, hmetao, Env.kmsDecryptCall, hkms]
  refine ⟨?_, ?_, ?_⟩
  · intro hp
    rw [hbase, hp]
  · intro mp hp
    constructor
    · intro hd
      rw [hbase, hp]
      simp [hpk, hd]
    · intro nn hd
      constructor
      · intro hl
        rw [hbase, hp]
        simp [hpk, hd, hl, gcmSeal, gcmOpen, hne]
      · intro hl
        rw [hbase, hp]
        simp [hpk, hd, hl]
  · intro val
    rw [hbase]
    rcases hp : parseMeta (m.set i b) with _ | mp
    · simp
    · simp only [hpk, if_true]
      rcases hd : b64decode mp.nonce with _ | nn
      · simp
      · by_cases hl : nn.length = 12
        · simp [hl, gcmSeal, gcmOpen, hne]
        · simp [hl]

/-- C2 witness: a mutation inside the base64 nonce text that keeps the
JSON well-formed and the base64 decodable lands in the `NonceDecryption`
arm. -/
theorem claim2_meta_mutation_fails_witness :
    Vault.lookup vA
      { envBase with objects :=
          [(strL ("s.key"), .wrapped pk32),
           (strL ("s.aesgcm.encrypted"), gcmSeal pk32 nonce12 m0 (strB ("v"))),
           (strL ("s.meta"), .bytes (m0.set 26 66))] }
      (strL ("s")) = .res (.error .nonceDecrypt) := by
  have h := claim2_meta_mutation_fails vA
    { envBase with objects :=
        [(strL ("s.key"), .wrapped pk32),
         (strL ("s.aesgcm.encrypted"), gcmSeal pk32 nonce12 m0 (strB ("v"))),
         (strL ("s.meta"), .bytes (m0.set 26 66))] }
    (strL ("s")) pk32 nonce12 m0 (strB ("v")) 26 66
    (by decide) (by decide) (by decide) (by decide) (fun _ => rfl) rfl
    (by decide) (by decide)
  exact (((h.2.1 ⟨strB ("AESGCM"),
    (strB ("AAAAAAAAAAAAAAAA")).set 1 66⟩ (by decide)).2
      [0, 16, 0, 0, 0, 0, 0, 0, 0, 0, 0, 0]
      (by decide)).1) (by decide)

/-- C9: `lookup` never inspects the `alg` field of the parsed sidecar
meta: for every stored secret whose `.meta` bytes equal the AAD the
ciphertext was sealed under and whose `nonce` field base64-decodes to
the 12-byte nonce used at encryption, decryption succeeds regardless of
the value of `alg`. -/
theorem claim9_lookup_ignores_alg (v : Vault) (env : Env) (n : Key)
    (pk nonce m d : Bytes) (mp : Meta)
    (hpk : pk.length = 32)
    (hkeyo : lookupA env.objects (S3DataKeys.new (v.fullKeyName n)).key =
      some (.wrapped pk))
    (hciph : lookupA env.objects (S3DataKeys.new (v.fullKeyName n)).cipher =
      some (gcmSeal pk nonce m d))
    (hmetao : lookupA env.objects (S3DataKeys.new (v.fullKeyName n)).meta =
      some (.bytes m))
    (hparse : parseMeta m = some mp)
    (hdec : b64decode mp.nonce = some nonce)
    (hnl : nonce.length = 12)
    (hget : ∀ k, env.getFault k = none)
    (hkms : env.kmsFault = none) :
    Vault.lookup v env n = .res (.ok (Value.new d)) := by
  rw [Vault.lookup]
  simp only [Env.getObj, hget, hkeyo, hciph, hmetao, Env.kmsDecryptCall, hkms,
    hparse, hpk, hdec, hnl]
  simp [gcmSeal, gcmOpen]

/-- C9 witness: a sidecar whose `alg` is `FOOBAR` still decrypts, since
its bytes are the sealed AAD and its nonce decodes to the sealing
nonce. -/
theorem claim9_lookup_ignores_alg_witness :
    Vault.lookup vA
      { envBase with objects :=
          [(strL ("s.key"), .wrapped pk32),
           (strL ("s.aesgcm.encrypted"),
            gcmSeal pk32 nonce12
              (strB ("\x7b\"alg\":\"FOOBAR\",\"nonce\":\"AAAAAAAAAAAAAAAA\"\x7d"))
              (strB ("v"))),
           (strL ("s.meta"),
            .bytes (strB ("\x7b\"alg\":\"FOOBAR\",\"nonce\":\"AAAAAAAAAAAAAAAA\"\x7d")))] }
      (strL ("s")) = .res (.ok (Value.new (strB ("v")))) :=
  claim9_lookup_ignores_alg vA
    { envBase with objects :=
        [(strL ("s.key"), .wrapped pk32),
         (strL ("s.aesgcm.encrypted"),
          gcmSeal pk32 nonce12
            (strB ("\x7b\"alg\":\"FOOBAR\",\"nonce\":\"AAAAAAAAAAAAAAAA\"\x7d"))
            (strB ("v"))),
         (strL ("s.meta"),
          .bytes (strB ("\x7b\"alg\":\"FOOBAR\",\"nonce\":\"AAAAAAAAAAAAAAAA\"\x7d")))] }
    (strL ("s")) pk32 nonce12
    (strB ("\x7b\"alg\":\"FOOBAR\",\"nonce\":\"AAAAAAAAAAAAAAAA\"\x7d"))
    (strB ("v"))
    ⟨strB ("FOOBAR"), strB ("AAAAAAAAAAAAAAAA")⟩
    (by decide) (by decide) (by decide) (by decide) (by decide) (by decide)
    (by decide) (fun _ => rfl) rfl
